import Mathlib

/-!
# go-wiki: page store, renderer, dispatcher and handlers

A shallow embedding of `wiki.go`.  The program's own functions (`save`, `loadPage`,
`renderTemplate`, `viewHandler`, `editHandler`, `saveHandler`, `makeHandler`, `validPath`)
are transcribed from the source.  The library calls they make (`os.WriteFile`, `os.ReadFile`,
`regexp`, `http.Error`, `http.NotFound`, `http.Redirect`, the `http.ResponseWriter`) are
modelled by their documented contracts; the parsed template set, whose files are not part of
the source, is a parameter.

Go strings are modelled by `String`, byte slices by `List UInt8`.
-/

namespace Wiki

/-! ## Working directory -/

/-- An entry of the working directory: a regular file with its content and permission bits,
or a sub-directory. -/
inductive Node where
  | file (data : List UInt8) (mode : Nat)
  | dir (mode : Nat)
deriving DecidableEq

/-- The part of the operating system the page store talks to: the entries of the process's
working directory by name, the process umask, whether the process may create entries in the
directory, and the free space of the device in bytes.  All entries belong to the user the
process runs as, and that user is not the super-user. -/
structure FS where
  entries : List (String × Node)
  umask : Nat
  dirWritable : Bool
  free : Nat
deriving DecidableEq

/-- The entry called `name`, if there is one. -/
def FS.lookup (fs : FS) (name : String) : Option Node :=
  (fs.entries.find? (fun e => e.1 = name)).map (fun e => e.2)

/-- Bind `name` to `node`, replacing an earlier entry of that name. -/
def FS.set (fs : FS) (name : String) (node : Node) : FS :=
  { fs with entries := (name, node) :: fs.entries.filter (fun e => e.1 ≠ name) }

/-- The content of the regular file `name`. -/
def FS.content (fs : FS) (name : String) : Option (List UInt8) :=
  match fs.lookup name with
  | some (.file data _) => some data
  | _ => none

/-- The permission bits of the regular file `name`. -/
def FS.mode (fs : FS) (name : String) : Option Nat :=
  match fs.lookup name with
  | some (.file _ mode) => some mode
  | _ => none

/-- Whether `name` is a regular file whose owner-read bit (0400) is set. -/
def FS.ownerReadable (fs : FS) (name : String) : Bool :=
  match fs.lookup name with
  | some (.file _ mode) => mode &&& 0o400 != 0
  | _ => false

/-- The permission bits a new file gets: the requested ones without those of the umask. -/
def applyUmask (perm umask : Nat) : Nat :=
  perm &&& (0o777 ^^^ (umask &&& 0o777))

/-- The write step of `os.WriteFile` on the already opened, empty file `name`: all of `data`
when the device has room for it, otherwise what fits, and the error of the short write. -/
def os.writeData (fs : FS) (name : String) (data : List UInt8) (mode : Nat) :
    Option String × FS :=
  if data.length ≤ fs.free then
    (none, { fs.set name (.file data mode) with free := fs.free - data.length })
  else
    (some ("write " ++ name ++ ": no space left on device"),
      { fs.set name (.file (data.take fs.free) mode) with free := 0 })

/-- Go's `os.WriteFile(name, data, perm)`: "writes data to the named file, creating it if
necessary.  If the file does not exist, WriteFile creates it with permissions perm (before
umask); otherwise WriteFile truncates it before writing, without changing permissions."
The result is the returned error (`none` for nil) and the directory afterwards. -/
def os.WriteFile (fs : FS) (name : String) (data : List UInt8) (perm : Nat) :
    Option String × FS :=
  match fs.lookup name with
  | some (.dir _) => (some ("open " ++ name ++ ": is a directory"), fs)
  | some (.file old mode) =>
    if mode &&& 0o200 = 0 then
      (some ("open " ++ name ++ ": permission denied"), fs)
    else
      os.writeData { fs.set name (.file [] mode) with free := fs.free + old.length }
        name data mode
  | none =>
    if fs.dirWritable then
      os.writeData (fs.set name (.file [] (applyUmask perm fs.umask)))
        name data (applyUmask perm fs.umask)
    else
      (some ("open " ++ name ++ ": permission denied"), fs)

/-- Go's `os.ReadFile(name)`: the content of the named file, or the error of the failed
open or read.  The directory is left as it is. -/
def os.ReadFile (fs : FS) (name : String) : Except String (List UInt8) :=
  match fs.lookup name with
  | none => .error ("open " ++ name ++ ": no such file or directory")
  | some (.dir _) => .error ("read " ++ name ++ ": is a directory")
  | some (.file data mode) =>
    if mode &&& 0o400 = 0 then
      .error ("open " ++ name ++ ": permission denied")
    else
      .ok data

deriving instance DecidableEq for Except

/-! ## Page store (`wiki.go` lines 11-39) -/

/-- The `Page` struct. -/
structure Page where
  Title : String
  Body : List UInt8
deriving DecidableEq

/-- The method `(p *Page) save() error`. -/
def Page.save (p : Page) (fs : FS) : Option String × FS :=
  let filename := p.Title ++ ".txt"
  os.WriteFile fs filename p.Body 0o600

/-- The function `loadPage(title string) (*Page, error)`. -/
def loadPage (title : String) (fs : FS) : Except String Page :=
  let filename := title ++ ".txt"
  match os.ReadFile fs filename with
  | .error err => .error err
  | .ok body => .ok { Title := title, Body := body }

/-! ## HTTP request and response -/

/-- The conversion `[]byte(s)`: the UTF-8 bytes of a string. -/
def toBytes (s : String) : List UInt8 :=
  s.toUTF8.data.toList

/-- A header map with one value per key. -/
abbrev Header := List (String × String)

/-- The value stored under `key`, if any. -/
def Header.Get (h : Header) (key : String) : Option String :=
  (h.find? (fun e => e.1 = key)).map (fun e => e.2)

/-- Remove `key`. -/
def Header.Del (h : Header) (key : String) : Header :=
  h.filter (fun e => e.1 ≠ key)

/-- Store `value` under `key`, replacing what was there. -/
def Header.Set (h : Header) (key value : String) : Header :=
  (key, value) :: h.Del key

/-- The state behind an `http.ResponseWriter`: the header map handed out by `Header()`, the
status code once the header has been written (`none` before), the headers that went out with
it, and the body bytes written so far. -/
structure ResponseWriter where
  header : Header
  status : Option Nat
  sent : Header
  body : List UInt8
deriving DecidableEq

/-- The writer the server hands to a handler: nothing set, nothing written. -/
def ResponseWriter.fresh : ResponseWriter :=
  { header := [], status := none, sent := [], body := [] }

/-- The method `WriteHeader(code)`: sends the header with the status code; a call after the
header has been written has no effect. -/
def ResponseWriter.WriteHeader (w : ResponseWriter) (code : Nat) : ResponseWriter :=
  match w.status with
  | some _ => w
  | none => { w with status := some code, sent := w.header }

/-- The method `Write(b)`: "if WriteHeader has not yet been called, Write calls
WriteHeader(http.StatusOK) before writing the data". -/
def ResponseWriter.Write (w : ResponseWriter) (b : List UInt8) : ResponseWriter :=
  let w1 := w.WriteHeader 200
  { w1 with body := w1.body ++ b }

/-- The part of `*http.Request` the program reads: the method, `URL.Path`, and the parsed form
as pairs of field name and first value. -/
structure Request where
  Method : String
  Path : String
  Form : List (String × String)
deriving DecidableEq

/-- The method `FormValue(key)`: the first value of the named form field, or the empty
string when the field is absent. -/
def Request.FormValue (r : Request) (key : String) : String :=
  match r.Form.find? (fun e => e.1 = key) with
  | some e => e.2
  | none => ""

/-- Go's `http.Error(w, error, code)`: replies with the error message as plain text and the
given status code; the message is written with `fmt.Fprintln`. -/
def http.Error (w : ResponseWriter) (error : String) (code : Nat) : ResponseWriter :=
  let h := w.header.Del "Content-Length"
  let h := h.Set "Content-Type" "text/plain; charset=utf-8"
  let h := h.Set "X-Content-Type-Options" "nosniff"
  let w1 := { w with header := h }
  let w2 := w1.WriteHeader code
  w2.Write (toBytes (error ++ "\n"))

/-- Go's `http.NotFound(w, r)`: replies with an HTTP 404 not found error. -/
def http.NotFound (w : ResponseWriter) (_r : Request) : ResponseWriter :=
  http.Error w "404 page not found" 404

/-- Go's `http.StatusText(code)` on the status codes the program uses; the empty string for a
code it does not know. -/
def http.StatusText (code : Nat) : String :=
  if code = 200 then "OK"
  else if code = 302 then "Found"
  else if code = 404 then "Not Found"
  else if code = 500 then "Internal Server Error"
  else ""

/-- The escaping of the five HTML-special characters in the body of a redirect. -/
def http.htmlEscape (s : String) : String :=
  String.join (s.data.map fun c =>
    if c = '&' then "&amp;"
    else if c = '<' then "&lt;"
    else if c = '>' then "&gt;"
    else if c = '"' then "&#34;"
    else if c = '\'' then "&#39;"
    else String.singleton c)

/-- Go's `http.Redirect(w, r, url, code)`: replies with a redirect to `url`; "if the
Content-Type header has not been set, Redirect sets it to text/html and writes a small HTML
body" (for GET).  The targets the handlers pass are absolute paths and go out as given. -/
def http.Redirect (w : ResponseWriter) (r : Request) (url : String) (code : Nat) :
    ResponseWriter :=
  let hadCT := (w.header.Get "Content-Type").isSome
  let h := w.header.Set "Location" url
  let h := if !hadCT && (r.Method = "GET" || r.Method = "HEAD") then
      h.Set "Content-Type" "text/html; charset=utf-8"
    else h
  let w1 := { w with header := h }
  let w2 := w1.WriteHeader code
  if !hadCT && r.Method = "GET" then
    w2.Write (toBytes
      ("<a href=\"" ++ http.htmlEscape url ++ "\">" ++ http.StatusText code ++ "</a>.\n" ++ "\n"))
  else
    w2

/-! ## Templates (`wiki.go` lines 24, 56-61) -/

/-- What one execution of a template does: the chunks it writes to the response, in order,
and the error it returns (`none` for nil).  "If an error occurs executing the template or
writing its output, execution stops, but partial results may already have been written to the
output writer." -/
structure Execution where
  writes : List (List UInt8)
  err : Option String
deriving DecidableEq

/-- The parsed template set `templates`.  Its source files `edit.html` and `view.html` are
not part of the program text, so the set is a parameter: for a template name and a page, the
execution that results. -/
abbrev Templates := String → Page → Execution

/-- The method `ExecuteTemplate(w, name, data)`. -/
def Templates.ExecuteTemplate (templates : Templates) (w : ResponseWriter) (name : String)
    (p : Page) : ResponseWriter × Option String :=
  ((templates name p).writes.foldl ResponseWriter.Write w, (templates name p).err)

/-- The function `renderTemplate(w, tmpl, p)`. -/
def renderTemplate (templates : Templates) (w : ResponseWriter) (tmpl : String) (p : Page) :
    ResponseWriter :=
  match templates.ExecuteTemplate w (tmpl ++ ".html") p with
  | (w1, some err) => http.Error w1 err 500
  | (w1, none) => w1

/-! ## Regular expressions (`wiki.go` line 25) -/

/-- The regular expressions the program's pattern is built from. -/
inductive Regex where
  | empty
  | char (c : Char)
  | cls (ranges : List (Char × Char))
  | seq (a b : Regex)
  | alt (a b : Regex)
  | plus (a : Regex)
  | group (i : Nat) (a : Regex)
  | bol
  | eol
deriving DecidableEq

/-- A position of a match in progress: the offset in the text, the text from there on, and
the text captured by each group so far. -/
structure MatchState where
  pos : Nat
  rest : List Char
  caps : List (List Char)
deriving DecidableEq

/-- A literal word: its characters in sequence. -/
def Regex.lit : List Char → Regex
  | [] => .empty
  | c :: cs => .seq (.char c) (Regex.lit cs)

/-- Whether `c` lies in one of the ranges of a character class. -/
def inClass (ranges : List (Char × Char)) (c : Char) : Bool :=
  ranges.any fun r => decide (r.1 ≤ c) && decide (c ≤ r.2)

/-- Greedy repetition of the step `f` at most `n` times, then the continuation `k`: one more
round is tried before stopping. -/
def Regex.star (f : (MatchState → Option MatchState) → MatchState → Option MatchState)
    (k : MatchState → Option MatchState) : Nat → MatchState → Option MatchState
  | 0, s => k s
  | n + 1, s =>
    match f (Regex.star f k n) s with
    | some r => some r
    | none => k s

/-- Backtracking match of `re` at the state `s`, then of the continuation `k`; alternatives
are tried left to right and repetition is greedy, which is the leftmost-first rule of Go's
`regexp`.  `^` holds at offset 0 only and `$` at the end of the text only (no `m` flag). -/
def Regex.run : Regex → (MatchState → Option MatchState) → MatchState → Option MatchState
  | .empty, k, s => k s
  | .char c, k, s =>
    match s.rest with
    | x :: xs => if x = c then k { s with pos := s.pos + 1, rest := xs } else none
    | [] => none
  | .cls ranges, k, s =>
    match s.rest with
    | x :: xs => if inClass ranges x then k { s with pos := s.pos + 1, rest := xs } else none
    | [] => none
  | .seq a b, k, s => a.run (b.run k) s
  | .alt a b, k, s =>
    match a.run k s with
    | some r => some r
    | none => b.run k s
  | .plus a, k, s => a.run (Regex.star a.run k s.rest.length) s
  | .group i a, k, s =>
    a.run (fun s1 =>
      k { s1 with caps := s1.caps.set i (s.rest.take (s.rest.length - s1.rest.length)) }) s
  | .bol, k, s => if s.pos = 0 then k s else none
  | .eol, k, s => if s.rest = [] then k s else none

/-- The number of capture groups: the method `NumSubexp`. -/
def Regex.NumSubexp : Regex → Nat
  | .seq a b => max a.NumSubexp b.NumSubexp
  | .alt a b => max a.NumSubexp b.NumSubexp
  | .plus a => a.NumSubexp
  | .group i a => max i a.NumSubexp
  | _ => 0

/-- A match that starts at offset `pos`, where `rest` is the text from there on: the text of
the whole match followed by the text of each group. -/
def Regex.matchAt (re : Regex) (pos : Nat) (rest : List Char) : Option (List String) :=
  match re.run some { pos := pos, rest := rest, caps := List.replicate (re.NumSubexp + 1) [] } with
  | some s => some ((s.caps.set 0 (rest.take (rest.length - s.rest.length))).map String.mk)
  | none => none

/-- The leftmost match: the start offsets are tried in increasing order. -/
def Regex.findFrom (re : Regex) : Nat → List Char → Option (List String)
  | pos, [] => re.matchAt pos []
  | pos, c :: cs =>
    match re.matchAt pos (c :: cs) with
    | some m => some m
    | none => Regex.findFrom re (pos + 1) cs

/-- The method `FindStringSubmatch(s)`: `none` (nil) when there is no match, otherwise the
text of the leftmost match and of its groups. -/
def Regex.FindStringSubmatch (re : Regex) (s : String) : Option (List String) :=
  re.findFrom 0 s.data

/-- The pattern `validPath`: `^/(edit|save|view)/([a-zA-Z0-9]+)$`. -/
def validPath : Regex :=
  .seq .bol
    (.seq (.char '/')
      (.seq (.group 1 (.alt (Regex.lit "edit".data)
                        (.alt (Regex.lit "save".data) (Regex.lit "view".data))))
        (.seq (.char '/')
          (.seq (.group 2 (.plus (.cls [('a', 'z'), ('A', 'Z'), ('0', '9')])))
            .eol))))

/-! ## Handlers (`wiki.go` lines 64-153) -/

/-- The function `viewHandler(w, r, title)`. -/
def viewHandler (templates : Templates) (w : ResponseWriter) (r : Request) (title : String)
    (fs : FS) : ResponseWriter × FS :=
  match loadPage title fs with
  | .error _ => (http.Redirect w r ("/edit/" ++ title) 302, fs)
  | .ok p => (renderTemplate templates w "view" p, fs)

/-- The function `editHandler(w, r, title)`. -/
def editHandler (templates : Templates) (w : ResponseWriter) (_r : Request) (title : String)
    (fs : FS) : ResponseWriter × FS :=
  match loadPage title fs with
  | .error _ => (renderTemplate templates w "edit" { Title := title, Body := [] }, fs)
  | .ok p => (renderTemplate templates w "edit" p, fs)

/-- The function `saveHandler(w, r, title)`. -/
def saveHandler (w : ResponseWriter) (r : Request) (title : String) (fs : FS) :
    ResponseWriter × FS :=
  let body := r.FormValue "body"
  let p : Page := { Title := title, Body := toBytes body }
  match p.save fs with
  | (some err, fs1) => (http.Error w err 500, fs1)
  | (none, fs1) => (http.Redirect w r ("/view/" ++ title) 302, fs1)

/-- A handler of three arguments, acting on the response writer and on a world `σ` (for the
wiki, the working directory). -/
abbrev TitleHandler (σ : Type) := ResponseWriter → Request → String → σ → ResponseWriter × σ

/-- The function `makeHandler(fn)`. -/
def makeHandler {σ : Type} (fn : TitleHandler σ) :
    ResponseWriter → Request → σ → ResponseWriter × σ :=
  fun w r s =>
    match validPath.FindStringSubmatch r.Path with
    | none => (http.NotFound w r, s)
    | some m => fn w r (m.getD 2 "") s

/-- A handler that, besides doing what `fn` does, appends the title of each call it receives
to a log. -/
def logged {σ : Type} (fn : TitleHandler σ) : TitleHandler (σ × List String) :=
  fun w r title s => ((fn w r title s.1).1, ((fn w r title s.1).2, s.2 ++ [title]))

/-! ## The path pattern in the words of the specification -/

/-- A character of `[a-zA-Z0-9]`. -/
def isAlnum (c : Char) : Bool :=
  (decide ('a' ≤ c) && decide (c ≤ 'z')) || (decide ('A' ≤ c) && decide (c ≤ 'Z'))
    || (decide ('0' ≤ c) && decide (c ≤ '9'))

/-- A title of `[a-zA-Z0-9]+`: one or more characters, letters and digits only. -/
def validTitle (t : String) : Bool :=
  !t.data.isEmpty && t.data.all isAlnum

/-- The three verbs of the routes. -/
def verbs : List String := ["view", "edit", "save"]

/-- A path of the form `/(view|edit|save)/[a-zA-Z0-9]+`: a slash, one of the three verbs, a
slash, and a title. -/
def pathMatches (path : String) : Bool :=
  verbs.any fun verb =>
    decide (('/' :: verb.data ++ ['/']) <+: path.data)
      && validTitle ⟨path.data.drop (verb.data.length + 2)⟩

/-! ## Auxiliary definitions -/

/-- The verb alternatives of `validPath`: `edit|save|view`. -/
def verbPart : Regex :=
  .alt (Regex.lit "edit".data) (.alt (Regex.lit "save".data) (Regex.lit "view".data))

/-- The part of `validPath` after the verb: `/([a-zA-Z0-9]+)$`. -/
def titlePart : Regex :=
  .seq (.char '/') (.seq (.group 2 (.plus (.cls [('a', 'z'), ('A', 'Z'), ('0', '9')]))) .eol)

/-- The mode `os.WriteFile` leaves on the file: the one it had, or for a new file the
requested one without the umask bits. -/
def modeAfterWrite (fs : FS) (name : String) (perm : Nat) : Nat :=
  match fs.lookup name with
  | some (.file _ mode) => mode
  | _ => applyUmask perm fs.umask

/-! ## Concrete states and inputs used in the examples -/

/-- An empty working directory, umask 022. -/
def fsEmpty : FS :=
  { entries := [], umask := 0o022, dirWritable := true, free := 4096 }

/-- A working directory in which `Test.txt` exists with mode 0200: its owner may write it but
not read it. -/
def fsWriteOnly : FS :=
  { entries := [("Test.txt", .file (toBytes "old") 0o200)], umask := 0o022,
    dirWritable := true, free := 4096 }

/-- A working directory in which `Test.txt` exists with mode 0644. -/
def fsWorldReadable : FS :=
  { entries := [("Test.txt", .file (toBytes "old") 0o644)], umask := 0o022,
    dirWritable := true, free := 4096 }

/-- A working directory in which `Test.txt` exists with mode 0400: read-only. -/
def fsReadOnly : FS :=
  { entries := [("Test.txt", .file (toBytes "old") 0o400)], umask := 0o022,
    dirWritable := true, free := 4096 }

/-- A working directory holding the pages `Test` and `Other`, both mode 0600. -/
def fsTwoPages : FS :=
  { entries := [("Test.txt", .file (toBytes "old") 0o600),
                ("Other.txt", .file (toBytes "other") 0o600)],
    umask := 0o022, dirWritable := true, free := 4096 }

/-- A template set whose templates write a heading with the title, then the body, and
succeed. -/
def plainTemplates : Templates :=
  fun _ p => { writes := [toBytes "<h1>", toBytes p.Title, toBytes "</h1>", p.Body], err := none }

/-- A template set whose templates write the opening of a heading and then fail, as a
template does that refers to a field `Page` does not have after some literal text. -/
def failingTemplates : Templates :=
  fun _ _ => { writes := [toBytes "<h1>"],
               err := some "template: can't evaluate field Author in type *main.Page" }

/-- A save request for the page `Test` with form body `hello`. -/
def saveRequest : Request :=
  { Method := "POST", Path := "/save/Test", Form := [("body", "hello")] }

/-- A view request for the page `Test`. -/
def viewRequest : Request :=
  { Method := "GET", Path := "/view/Test", Form := [] }

/-! ## Facts about the working directory -/

theorem FS.lookup_set_same (fs : FS) (name : String) (node : Node) :
    (fs.set name node).lookup name = some node := by
  simp [FS.lookup, FS.set]

theorem FS.lookup_set_other (fs : FS) (name other : String) (node : Node) (h : other ≠ name) :
    (fs.set name node).lookup other = fs.lookup other := by
  have hp : (fun a : String × Node => (!decide (a.1 = name) && decide (a.1 = other)))
      = fun a => decide (a.1 = other) := by
    funext a
    by_cases ho : a.1 = other
    · have : ¬ a.1 = name := fun h2 => h (ho ▸ h2)
      simp [ho, this, h]
    · simp [ho]
  have hn : ¬ name = other := fun h2 => h h2.symm
  simp [FS.lookup, FS.set, List.find?_cons, hn, List.find?_filter, hp]

theorem txt_injective (a b : String) (h : a ++ ".txt" = b ++ ".txt") : a = b := by
  have h1 := congrArg String.data h
  simp only [String.data_append] at h1
  exact String.ext (List.append_cancel_right h1)

theorem os.writeData_lookup_other (fs : FS) (name other : String) (data : List UInt8)
    (mode : Nat) (h : other ≠ name) :
    (os.writeData fs name data mode).2.lookup other = fs.lookup other := by
  unfold os.writeData
  split
  · exact FS.lookup_set_other fs name other _ h
  · exact FS.lookup_set_other fs name other _ h

theorem os.writeData_ok (fs : FS) (name : String) (data : List UInt8) (mode : Nat)
    (h : (os.writeData fs name data mode).1 = none) :
    (os.writeData fs name data mode).2.lookup name = some (.file data mode) := by
  unfold os.writeData at h ⊢
  split
  · exact FS.lookup_set_same fs name _
  · rename_i hlen
    simp [hlen] at h

theorem os.WriteFile_lookup_other (fs : FS) (name other : String) (data : List UInt8)
    (perm : Nat) (h : other ≠ name) :
    (os.WriteFile fs name data perm).2.lookup other = fs.lookup other := by
  unfold os.WriteFile
  split
  · rfl
  · split
    · rfl
    · rw [os.writeData_lookup_other _ _ _ _ _ h]
      exact FS.lookup_set_other fs name other _ h
  · split
    · rw [os.writeData_lookup_other _ _ _ _ _ h]
      exact FS.lookup_set_other fs name other _ h
    · rfl

theorem os.WriteFile_ok (fs : FS) (name : String) (data : List UInt8) (perm : Nat)
    (h : (os.WriteFile fs name data perm).1 = none) :
    (os.WriteFile fs name data perm).2.lookup name
      = some (.file data (modeAfterWrite fs name perm)) := by
  cases hl : fs.lookup name with
  | none =>
    simp only [os.WriteFile, hl, modeAfterWrite] at h ⊢
    by_cases hw : fs.dirWritable = true
    · simp only [hw, if_true] at h ⊢
      exact os.writeData_ok _ _ _ _ h
    · simp [hw] at h
  | some node =>
    cases node with
    | dir m => simp [os.WriteFile, hl] at h
    | file old m =>
      simp only [os.WriteFile, hl, modeAfterWrite] at h ⊢
      by_cases hm : m &&& 0o200 = 0
      · simp [hm] at h
      · simp only [hm, if_false] at h ⊢
        exact os.writeData_ok _ _ _ _ h

theorem loadPage_of_lookup (title : String) (fs : FS) (data : List UInt8) (mode : Nat)
    (h : fs.lookup (title ++ ".txt") = some (.file data mode)) :
    loadPage title fs
      = if mode &&& 0o400 = 0 then .error ("open " ++ (title ++ ".txt") ++ ": permission denied")
        else .ok ⟨title, data⟩ := by
  by_cases hm : mode &&& 0o400 = 0 <;> simp [loadPage, os.ReadFile, h, hm]

theorem loadPage_congr (title : String) (fs1 fs2 : FS)
    (h : fs1.lookup (title ++ ".txt") = fs2.lookup (title ++ ".txt")) :
    loadPage title fs1 = loadPage title fs2 := by
  simp only [loadPage, os.ReadFile, h]

theorem applyUmask_bits (umask : Nat) : applyUmask 0o600 umask &&& 0o177 = 0 := by
  unfold applyUmask
  rw [Nat.and_comm 0o600, Nat.and_assoc]
  exact Nat.and_zero _

set_option maxRecDepth 100000

theorem applyUmask_exact (umask : Nat) (h : umask &&& 0o600 = 0) :
    applyUmask 0o600 umask = 0o600 := by
  unfold applyUmask
  have h1 : (umask &&& 0o777) &&& 0o600 = 0 := by
    rw [Nat.and_assoc]
    exact h
  have h2 : umask &&& 0o777 < 512 := Nat.and_lt_two_pow umask (n := 9) (by norm_num)
  generalize umask &&& 0o777 = v at h1 h2
  revert h1
  revert v
  decide

/-! ## Facts about the matcher -/

theorem Regex.run_char_some (c : Char) (k : MatchState → Option MatchState) (s x : MatchState)
    (h : (Regex.char c).run k s = some x) :
    ∃ xs, s.rest = c :: xs ∧ k { s with pos := s.pos + 1, rest := xs } = some x := by
  simp only [Regex.run] at h
  split at h
  · rename_i y ys hr
    by_cases hy : y = c
    · simp only [hy, if_true] at h
      exact ⟨ys, by rw [hr, hy], h⟩
    · simp [hy] at h
  · cases h

theorem Regex.run_cls_cons (ranges : List (Char × Char)) (k : MatchState → Option MatchState)
    (pos : Nat) (c : Char) (cs : List Char) (caps : List (List Char)) :
    (Regex.cls ranges).run k { pos := pos, rest := c :: cs, caps := caps }
      = if inClass ranges c = true then k { pos := pos + 1, rest := cs, caps := caps }
        else none := by
  simp only [Regex.run]

theorem Regex.run_char_cons (c : Char) (k : MatchState → Option MatchState)
    (pos : Nat) (y : Char) (ys : List Char) (caps : List (List Char)) :
    (Regex.char c).run k { pos := pos, rest := y :: ys, caps := caps }
      = if y = c then k { pos := pos + 1, rest := ys, caps := caps } else none := by
  simp only [Regex.run]

theorem Regex.run_lit_append (w r : List Char) (k : MatchState → Option MatchState)
    (pos : Nat) (caps : List (List Char)) :
    (Regex.lit w).run k { pos := pos, rest := w ++ r, caps := caps }
      = k { pos := pos + w.length, rest := r, caps := caps } := by
  induction w generalizing pos with
  | nil => simp [Regex.lit, Regex.run]
  | cons c cs ih =>
    simp only [Regex.lit, Regex.run, List.cons_append, if_true, ih, List.length_cons]
    congr 2
    omega

theorem Regex.run_lit_some (w : List Char) (k : MatchState → Option MatchState)
    (s x : MatchState) (h : (Regex.lit w).run k s = some x) :
    ∃ r, s.rest = w ++ r ∧ k { s with pos := s.pos + w.length, rest := r } = some x := by
  induction w generalizing s with
  | nil => exact ⟨s.rest, rfl, by simpa [Regex.lit, Regex.run] using h⟩
  | cons c cs ih =>
    simp only [Regex.lit, Regex.run] at h
    obtain ⟨xs, hxs, hk⟩ := Regex.run_char_some c _ s x (by simpa only [Regex.run] using h)
    obtain ⟨r, hr, hk2⟩ := ih _ hk
    refine ⟨r, ?_, ?_⟩
    · simp only at hr
      rw [hxs, hr, List.cons_append]
    · simp only [List.length_cons] at hk2 ⊢
      rw [← hk2]
      congr 2
      omega

theorem Regex.star_cls_all (ranges : List (Char × Char)) (k : MatchState → Option MatchState)
    (x : MatchState) (n : Nat) (s : MatchState)
    (hall : ∀ c ∈ s.rest, inClass ranges c = true) (hn : s.rest.length ≤ n)
    (hk : k { s with pos := s.pos + s.rest.length, rest := [] } = some x) :
    Regex.star (Regex.cls ranges).run k n s = some x := by
  induction n generalizing s with
  | zero =>
    have hr : s.rest = [] := List.length_eq_zero.mp (Nat.le_zero.mp hn)
    simp only [Regex.star]
    rw [← hk]
    congr 1
    cases s
    simp_all
  | succ n ih =>
    obtain ⟨pos, rest, caps⟩ := s
    cases rest with
    | nil =>
      simp only [Regex.star, Regex.run]
      simpa using hk
    | cons c cs =>
      have hc : inClass ranges c = true := hall c (List.mem_cons_self _ _)
      have hrec := ih { pos := pos + 1, rest := cs, caps := caps }
        (fun d hd => hall d (List.mem_cons_of_mem _ hd))
        (by simpa using hn)
        (by
          rw [← hk]
          congr 2
          simp only [List.length_cons]
          omega)
      simp only [Regex.star]
      rw [Regex.run_cls_cons, if_pos hc, hrec]

theorem Regex.star_cls_some (ranges : List (Char × Char)) (k : MatchState → Option MatchState)
    (x : MatchState) (n : Nat) (s : MatchState)
    (h : Regex.star (Regex.cls ranges).run k n s = some x) :
    ∃ u v, s.rest = u ++ v ∧ (∀ c ∈ u, inClass ranges c = true)
      ∧ k { s with pos := s.pos + u.length, rest := v } = some x := by
  induction n generalizing s with
  | zero => exact ⟨[], s.rest, rfl, by simp, by simpa [Regex.star] using h⟩
  | succ n ih =>
    simp only [Regex.star] at h
    split at h
    · rename_i r hr
      simp only [Regex.run] at hr
      split at hr
      · rename_i y ys hrest
        by_cases hy : inClass ranges y = true
        · simp only [hy, if_true] at hr
          obtain ⟨u, v, huv, hall, hk⟩ := ih _ (hr.trans h)
          refine ⟨y :: u, v, ?_, ?_, ?_⟩
          · simp only at huv
            rw [hrest, huv, List.cons_append]
          · intro c hc
            rcases List.mem_cons.mp hc with rfl | hc
            · exact hy
            · exact hall c hc
          · simp only [List.length_cons] at hk ⊢
            rw [← hk]
            congr 2
            omega
        · simp [hy] at hr
      · cases hr
    · exact ⟨[], s.rest, rfl, by simp, by simpa using h⟩

theorem Regex.run_seq (a b : Regex) (k : MatchState → Option MatchState) (s : MatchState) :
    (Regex.seq a b).run k s = a.run (b.run k) s := by
  simp only [Regex.run]

theorem Regex.run_group (i : Nat) (a : Regex) (k : MatchState → Option MatchState)
    (s : MatchState) :
    (Regex.group i a).run k s
      = a.run (fun s1 => k { s1 with
          caps := s1.caps.set i (s.rest.take (s.rest.length - s1.rest.length)) }) s := by
  simp only [Regex.run]

theorem Regex.run_alt (a b : Regex) (k : MatchState → Option MatchState) (s : MatchState) :
    (Regex.alt a b).run k s
      = match a.run k s with
        | some r => some r
        | none => b.run k s := by
  simp only [Regex.run]

theorem Regex.run_alt_some (a b : Regex) (k : MatchState → Option MatchState)
    (s x : MatchState) (h : (Regex.alt a b).run k s = some x) :
    a.run k s = some x ∨ b.run k s = some x := by
  rw [Regex.run_alt] at h
  split at h
  · rename_i r hr
    exact Or.inl (hr.trans h)
  · exact Or.inr h

theorem Regex.run_plus (a : Regex) (k : MatchState → Option MatchState) (s : MatchState) :
    (Regex.plus a).run k s = a.run (Regex.star a.run k s.rest.length) s := by
  simp only [Regex.run]

theorem Regex.run_eol (k : MatchState → Option MatchState) (s : MatchState) :
    Regex.eol.run k s = if s.rest = [] then k s else none := by
  simp only [Regex.run]

theorem Regex.run_bol (k : MatchState → Option MatchState) (s : MatchState) :
    Regex.bol.run k s = if s.pos = 0 then k s else none := by
  simp only [Regex.run]

theorem inClass_alnum (c : Char) :
    inClass [('a', 'z'), ('A', 'Z'), ('0', '9')] c = isAlnum c := by
  simp [inClass, isAlnum, Bool.or_assoc]

theorem titlePart_run (pos : Nat) (t : List Char) (caps : List (List Char))
    (hne : t ≠ []) (hall : ∀ c ∈ t, isAlnum c = true) :
    titlePart.run some { pos := pos, rest := '/' :: t, caps := caps }
      = some { pos := pos + 1 + t.length, rest := [], caps := caps.set 2 t } := by
  cases t with
  | nil => exact absurd rfl hne
  | cons c cs =>
    have hc : inClass [('a', 'z'), ('A', 'Z'), ('0', '9')] c = true := by
      rw [inClass_alnum]
      exact hall c (List.mem_cons_self _ _)
    unfold titlePart
    rw [Regex.run_seq]
    simp only [Regex.run_char_cons, if_true]
    rw [Regex.run_seq, Regex.run_group, Regex.run_plus, Regex.run_cls_cons, if_pos hc]
    apply Regex.star_cls_all
    · intro d hd
      rw [inClass_alnum]
      exact hall d (List.mem_cons_of_mem _ hd)
    · simp
    · simp only [Regex.run_eol, if_true, List.length_cons]
      congr 2
      · omega
      · simp

theorem Regex.run_cls_some (ranges : List (Char × Char))
    (k : MatchState → Option MatchState) (s x : MatchState)
    (h : (Regex.cls ranges).run k s = some x) :
    ∃ c cs, s.rest = c :: cs ∧ inClass ranges c = true
      ∧ k { s with pos := s.pos + 1, rest := cs } = some x := by
  simp only [Regex.run] at h
  split at h
  · rename_i y ys hr
    by_cases hy : inClass ranges y = true
    · simp only [hy, if_true] at h
      exact ⟨y, ys, hr, hy, h⟩
    · simp [hy] at h
  · cases h

theorem titlePart_some (s x : MatchState) (h : titlePart.run some s = some x) :
    ∃ t, t ≠ [] ∧ (∀ c ∈ t, isAlnum c = true) ∧ s.rest = '/' :: t := by
  unfold titlePart at h
  rw [Regex.run_seq] at h
  obtain ⟨xs, hxs, h⟩ := Regex.run_char_some _ _ _ _ h
  rw [Regex.run_seq, Regex.run_group, Regex.run_plus] at h
  obtain ⟨c, cs, hcs, hc, h⟩ := Regex.run_cls_some _ _ _ _ h
  obtain ⟨u, v, huv, hall, hk⟩ := Regex.star_cls_some _ _ _ _ _ h
  simp only [Regex.run_eol] at hk
  split at hk
  · rename_i hv
    simp only at hcs huv hv
    subst hv
    refine ⟨c :: u, by simp, ?_, ?_⟩
    · intro d hd
      rw [← inClass_alnum]
      rcases List.mem_cons.mp hd with rfl | hd
      · exact hc
      · exact hall d hd
    · rw [hxs, hcs, huv, List.append_nil]
  · cases hk

theorem validPath_parts :
    validPath = .seq .bol (.seq (.char '/') (.seq (.group 1 verbPart) titlePart)) := rfl

theorem take_sub_right (w r : List Char) :
    (w ++ r).take ((w ++ r).length - r.length) = w := by
  rw [List.length_append, Nat.add_sub_cancel, List.take_left]

theorem verbPart_some (s x : MatchState)
    (h : (Regex.group 1 verbPart).run (titlePart.run some) s = some x) :
    ∃ verb ∈ verbs, ∃ t, t ≠ [] ∧ (∀ c ∈ t, isAlnum c = true)
      ∧ s.rest = verb.data ++ '/' :: t := by
  rw [Regex.run_group] at h
  unfold verbPart at h
  rcases Regex.run_alt_some _ _ _ _ _ h with h1 | h1
  · obtain ⟨r, hr, hk⟩ := Regex.run_lit_some _ _ _ _ h1
    obtain ⟨t, hne, hall, ht⟩ := titlePart_some _ _ hk
    exact ⟨"edit", by simp [verbs], t, hne, hall, by rw [hr, ← ht]⟩
  · rcases Regex.run_alt_some _ _ _ _ _ h1 with h2 | h2
    · obtain ⟨r, hr, hk⟩ := Regex.run_lit_some _ _ _ _ h2
      obtain ⟨t, hne, hall, ht⟩ := titlePart_some _ _ hk
      exact ⟨"save", by simp [verbs], t, hne, hall, by rw [hr, ← ht]⟩
    · obtain ⟨r, hr, hk⟩ := Regex.run_lit_some _ _ _ _ h2
      obtain ⟨t, hne, hall, ht⟩ := titlePart_some _ _ hk
      exact ⟨"view", by simp [verbs], t, hne, hall, by rw [hr, ← ht]⟩

theorem Regex.run_lit_mismatch (c y : Char) (cs ys : List Char)
    (k : MatchState → Option MatchState) (pos : Nat) (caps : List (List Char)) (h : y ≠ c) :
    (Regex.lit (c :: cs)).run k { pos := pos, rest := y :: ys, caps := caps } = none := by
  simp [Regex.lit, Regex.run, h]

theorem verbPart_run (verb : String) (hv : verb ∈ verbs) (pos : Nat) (t : List Char)
    (caps : List (List Char)) (hne : t ≠ []) (hall : ∀ c ∈ t, isAlnum c = true) :
    (Regex.group 1 verbPart).run (titlePart.run some)
        { pos := pos, rest := verb.data ++ '/' :: t, caps := caps }
      = some { pos := pos + verb.data.length + 1 + t.length, rest := [],
               caps := (caps.set 1 verb.data).set 2 t } := by
  rw [Regex.run_group]
  unfold verbPart
  simp only [verbs, List.mem_cons, List.mem_singleton, List.not_mem_nil, or_false] at hv
  rcases hv with rfl | rfl | rfl
  · rw [Regex.run_alt, Regex.run_alt]
    rw [show "view".data ++ '/' :: t = 'v' :: ("iew".data ++ '/' :: t) from rfl]
    rw [show "edit".data = 'e' :: "dit".data from rfl, Regex.run_lit_mismatch _ _ _ _ _ _ _ (by decide)]
    rw [show "save".data = 's' :: "ave".data from rfl, Regex.run_lit_mismatch _ _ _ _ _ _ _ (by decide)]
    simp only
    rw [show 'v' :: ("iew".data ++ '/' :: t) = "view".data ++ '/' :: t from rfl,
      Regex.run_lit_append]
    simp only [take_sub_right]
    rw [titlePart_run _ _ _ hne hall]
  · rw [Regex.run_alt]
    rw [Regex.run_lit_append]
    simp only [take_sub_right]
    rw [titlePart_run _ _ _ hne hall]
  · rw [Regex.run_alt, Regex.run_alt]
    rw [show "save".data ++ '/' :: t = 's' :: ("ave".data ++ '/' :: t) from rfl]
    rw [show "edit".data = 'e' :: "dit".data from rfl, Regex.run_lit_mismatch _ _ _ _ _ _ _ (by decide)]
    simp only
    rw [show 's' :: ("ave".data ++ '/' :: t) = "save".data ++ '/' :: t from rfl,
      Regex.run_lit_append]
    simp only [take_sub_right]
    rw [titlePart_run _ _ _ hne hall]

theorem validPath_matchAt_pos (pos : Nat) (l : List Char) (h : pos ≠ 0) :
    validPath.matchAt pos l = none := by
  simp only [Regex.matchAt, validPath_parts, Regex.run_seq, Regex.run_bol, h, if_false]

theorem validPath_findFrom_pos (pos : Nat) (l : List Char) (h : pos ≠ 0) :
    validPath.findFrom pos l = none := by
  induction l generalizing pos with
  | nil => simp only [Regex.findFrom, validPath_matchAt_pos pos [] h]
  | cons c cs ih =>
    simp only [Regex.findFrom, validPath_matchAt_pos pos (c :: cs) h]
    exact ih (pos + 1) (Nat.succ_ne_zero pos)

theorem validPath_find (path : String) :
    validPath.FindStringSubmatch path = validPath.matchAt 0 path.data := by
  unfold Regex.FindStringSubmatch
  cases path.data with
  | nil => rfl
  | cons c cs =>
    simp only [Regex.findFrom]
    split
    · rename_i m hm
      exact hm.symm
    · rename_i hm
      rw [hm]
      exact validPath_findFrom_pos 1 cs (by decide)

theorem validPath_matchAt_form (verb : String) (hv : verb ∈ verbs) (t : List Char)
    (hne : t ≠ []) (hall : ∀ c ∈ t, isAlnum c = true) :
    validPath.matchAt 0 ('/' :: (verb.data ++ '/' :: t))
      = some [⟨'/' :: (verb.data ++ '/' :: t)⟩, verb, ⟨t⟩] := by
  have hn : validPath.NumSubexp = 2 := by decide
  simp only [Regex.matchAt, hn]
  rw [validPath_parts, Regex.run_seq, Regex.run_bol, if_pos rfl, Regex.run_seq,
    Regex.run_char_cons, if_pos rfl, Regex.run_seq, verbPart_run verb hv _ _ _ hne hall]
  simp only [List.length_nil, Nat.sub_zero, List.take_length]
  rfl

theorem validPath_matchAt_some (l : List Char) (m : List String)
    (h : validPath.matchAt 0 l = some m) :
    ∃ verb ∈ verbs, ∃ t, t ≠ [] ∧ (∀ c ∈ t, isAlnum c = true)
      ∧ l = '/' :: (verb.data ++ '/' :: t) := by
  simp only [Regex.matchAt] at h
  split at h
  · rename_i x hx
    rw [validPath_parts, Regex.run_seq, Regex.run_bol, if_pos rfl, Regex.run_seq] at hx
    obtain ⟨xs, hxs, hk⟩ := Regex.run_char_some _ _ _ _ hx
    rw [Regex.run_seq] at hk
    obtain ⟨verb, hv, t, hne, hall, ht⟩ := verbPart_some _ _ hk
    simp only at hxs ht
    exact ⟨verb, hv, t, hne, hall, by rw [hxs, ht]⟩
  · cases h

theorem path_data (verb t : String) :
    ("/" ++ verb ++ "/" ++ t).data = '/' :: (verb.data ++ '/' :: t.data) := by
  simp [String.data_append]

theorem validTitle_iff (t : String) :
    validTitle t = true ↔ t.data ≠ [] ∧ ∀ c ∈ t.data, isAlnum c = true := by
  simp [validTitle, List.isEmpty_iff]

/-- On a path of the form `/verb/title` the pattern matches, with the verb and the title as
its two groups. -/
theorem validPath_matches (verb t : String) (hv : verb ∈ verbs) (ht : validTitle t = true) :
    validPath.FindStringSubmatch ("/" ++ verb ++ "/" ++ t)
      = some ["/" ++ verb ++ "/" ++ t, verb, t] := by
  obtain ⟨hne, hall⟩ := (validTitle_iff t).mp ht
  rw [validPath_find, path_data, validPath_matchAt_form verb hv t.data hne hall, ← path_data]

/-- A path the pattern matches has the form `/verb/title`. -/
theorem validPath_some (path : String) (m : List String)
    (h : validPath.FindStringSubmatch path = some m) :
    ∃ verb ∈ verbs, ∃ t, validTitle t = true ∧ path = "/" ++ verb ++ "/" ++ t
      ∧ m = [path, verb, t] := by
  rw [validPath_find] at h
  obtain ⟨verb, hv, t, hne, hall, hl⟩ := validPath_matchAt_some _ _ h
  have hp : path = "/" ++ verb ++ "/" ++ ⟨t⟩ := String.ext (by rw [hl, path_data])
  refine ⟨verb, hv, ⟨t⟩, (validTitle_iff _).mpr ⟨hne, hall⟩, hp, ?_⟩
  have h2 := validPath_matches verb ⟨t⟩ hv ((validTitle_iff _).mpr ⟨hne, hall⟩)
  rw [← hp, validPath_find, h] at h2
  rw [Option.some.inj h2]

theorem pathMatches_form (verb t : String) (hv : verb ∈ verbs) (ht : validTitle t = true) :
    pathMatches ("/" ++ verb ++ "/" ++ t) = true := by
  simp only [pathMatches, List.any_eq_true]
  refine ⟨verb, hv, ?_⟩
  rw [path_data]
  have hd : List.drop (verb.data.length + 2) ('/' :: (verb.data ++ '/' :: t.data)) = t.data := by
    rw [show '/' :: (verb.data ++ '/' :: t.data) = ('/' :: verb.data ++ ['/']) ++ t.data by simp]
    rw [List.drop_left']
    simp
  rw [hd]
  simp only [Bool.and_eq_true, decide_eq_true_eq]
  refine ⟨?_, ht⟩
  rw [show '/' :: (verb.data ++ '/' :: t.data) = ('/' :: verb.data ++ ['/']) ++ t.data by simp]
  exact List.prefix_append _ _

/-- A path that is not of the form `/(view|edit|save)/[a-zA-Z0-9]+` is not matched. -/
theorem validPath_none (path : String) (h : pathMatches path = false) :
    validPath.FindStringSubmatch path = none := by
  cases hm : validPath.FindStringSubmatch path with
  | none => rfl
  | some m =>
    obtain ⟨verb, hv, t, ht, hp, _⟩ := validPath_some path m hm
    rw [hp, pathMatches_form verb t hv ht] at h
    cases h

/-- Paths the pattern rejects: an empty title, a title with a dot, a slash, a hyphen, a
space or a trailing newline, an unknown verb, and text before the leading slash. -/
theorem validPath_rejects_examples :
    ["/view/", "/view/a.b", "/view/a/b", "/view/a-b", "/view/a b", "/view/ab\n",
      "/delete/ab", "x/view/ab"].all
        (fun path => !pathMatches path && (validPath.FindStringSubmatch path).isNone) = true := by
  decide

/-! ## Facts about the response writer -/

theorem http.Error_unwritten (w : ResponseWriter) (error : String) (code : Nat)
    (hw : w.status = none) :
    (http.Error w error code).status = some code
      ∧ (http.Error w error code).body = w.body ++ toBytes (error ++ "\n") := by
  simp [http.Error, ResponseWriter.WriteHeader, ResponseWriter.Write, hw]

theorem http.Error_written (w : ResponseWriter) (error : String) (code c : Nat)
    (hw : w.status = some c) :
    (http.Error w error code).status = some c
      ∧ (http.Error w error code).body = w.body ++ toBytes (error ++ "\n") := by
  simp [http.Error, ResponseWriter.WriteHeader, ResponseWriter.Write, hw]

theorem http.Redirect_unwritten (w : ResponseWriter) (r : Request) (url : String) (code : Nat)
    (hw : w.status = none) :
    (http.Redirect w r url code).status = some code
      ∧ (http.Redirect w r url code).sent.Get "Location" = some url := by
  unfold http.Redirect
  generalize (w.header.Get "Content-Type").isSome = b
  cases b <;>
  by_cases h2 : r.Method = "GET" <;>
  by_cases h3 : r.Method = "HEAD" <;>
  simp [ResponseWriter.WriteHeader, ResponseWriter.Write, hw, h2, h3, Header.Get,
    Header.Set, Header.Del]

theorem writes_status (ws : List (List UInt8)) (w : ResponseWriter) :
    (ws.foldl ResponseWriter.Write w).status
      = if ws = [] then w.status else some (w.status.getD 200) := by
  induction ws generalizing w with
  | nil => rfl
  | cons b bs ih =>
    rw [List.foldl_cons, ih]
    cases hs : w.status <;> by_cases hb : bs = [] <;>
      simp [ResponseWriter.Write, ResponseWriter.WriteHeader, hs, hb]

theorem writes_body (ws : List (List UInt8)) (w : ResponseWriter) :
    (ws.foldl ResponseWriter.Write w).body = w.body ++ ws.flatten := by
  induction ws generalizing w with
  | nil => simp
  | cons b bs ih =>
    rw [List.foldl_cons, ih]
    cases hs : w.status <;>
      simp [ResponseWriter.Write, ResponseWriter.WriteHeader, hs]

/-- When the template fails before it has written anything, the reply is a 500 that carries
the error text. -/
theorem renderTemplate_error_before_output (templates : Templates) (w : ResponseWriter)
    (tmpl : String) (p : Page) (err : String) (hw : w.status = none)
    (hwr : (templates (tmpl ++ ".html") p).writes = [])
    (he : (templates (tmpl ++ ".html") p).err = some err) :
    (renderTemplate templates w tmpl p).status = some 500
      ∧ (renderTemplate templates w tmpl p).body = w.body ++ toBytes (err ++ "\n") := by
  simp only [renderTemplate, Templates.ExecuteTemplate, hwr, he, List.foldl_nil]
  exact http.Error_unwritten w err 500 hw

/-- When the template succeeds, the reply is what the template wrote: no error text, and no
status 500 unless the writer already carried it. -/
theorem renderTemplate_ok (templates : Templates) (w : ResponseWriter)
    (tmpl : String) (p : Page) (he : (templates (tmpl ++ ".html") p).err = none) :
    renderTemplate templates w tmpl p
      = (templates (tmpl ++ ".html") p).writes.foldl ResponseWriter.Write w := by
  simp only [renderTemplate, Templates.ExecuteTemplate, he]

/-- The status after `renderTemplate` on a writer whose header is unwritten: none, 200 or
500, and 500 only when the template failed. -/
theorem renderTemplate_status (templates : Templates) (w : ResponseWriter)
    (tmpl : String) (p : Page) (hw : w.status = none) :
    (renderTemplate templates w tmpl p).status ≠ some 302
      ∧ ((templates (tmpl ++ ".html") p).err = none →
          (renderTemplate templates w tmpl p).status ≠ some 500) := by
  cases he : (templates (tmpl ++ ".html") p).err with
  | none =>
    rw [renderTemplate_ok templates w tmpl p he, writes_status, hw]
    by_cases hws : (templates (tmpl ++ ".html") p).writes = [] <;> simp [hws]
  | some err =>
    simp only [renderTemplate, Templates.ExecuteTemplate, he]
    by_cases hws : (templates (tmpl ++ ".html") p).writes = []
    · rw [hws, List.foldl_nil, (http.Error_unwritten w err 500 hw).1]
      simp
    · have hst : ((templates (tmpl ++ ".html") p).writes.foldl ResponseWriter.Write w).status
          = some 200 := by
        rw [writes_status, if_neg hws, hw]
        rfl
      rw [(http.Error_written _ err 500 200 hst).1]
      simp

/-! ## Facts about the save handler -/

theorem saveHandler_of_ok (w : ResponseWriter) (r : Request) (title : String) (fs : FS)
    (hs : (Page.save ⟨title, toBytes (r.FormValue "body")⟩ fs).1 = none) :
    saveHandler w r title fs
      = (http.Redirect w r ("/view/" ++ title) 302,
          (Page.save ⟨title, toBytes (r.FormValue "body")⟩ fs).2) := by
  unfold saveHandler
  simp only
  split
  · rename_i e fs1 heq
    rw [heq] at hs
    cases hs
  · rename_i fs1 heq
    rw [heq]

theorem saveHandler_of_error (w : ResponseWriter) (r : Request) (title : String) (fs : FS)
    (err : String)
    (he : (Page.save ⟨title, toBytes (r.FormValue "body")⟩ fs).1 = some err) :
    (saveHandler w r title fs).1 = http.Error w err 500 := by
  unfold saveHandler
  simp only
  split
  · rename_i e fs1 heq
    rw [heq] at he
    rw [Option.some.inj he]
  · rename_i fs1 heq
    rw [heq] at he
    cases he

/-! ## The claims -/

/-- C1, as stated, fails: with `Test.txt` present and write-only (mode 0200), saving the page
`Test` succeeds and the `loadPage` that follows fails with "permission denied". -/
theorem save_then_loadPage_unreadable :
    validTitle "Test" = true
      ∧ (Page.save ⟨"Test", toBytes "hello"⟩ fsWriteOnly).1 = none
      ∧ loadPage "Test" (Page.save ⟨"Test", toBytes "hello"⟩ fsWriteOnly).2
          = .error "open Test.txt: permission denied" := by
  decide

/-- C1 (amended): for every title matching `[a-zA-Z0-9]+`, every body `b` and every prior
state of the directory, if `Page{title, b}.save()` succeeds then the file `<title>.txt` holds
exactly `b` (nothing of an earlier content is left), `loadPage(title)` right afterwards
succeeds with `Page{title, b}` whenever the file is readable by its owner, and no successful
`loadPage(title)` returns anything else. -/
theorem save_then_loadPage (title : String) (b : List UInt8) (fs : FS)
    (_ht : validTitle title = true)
    (hs : (Page.save ⟨title, b⟩ fs).1 = none) :
    (Page.save ⟨title, b⟩ fs).2.content (title ++ ".txt") = some b
      ∧ ((Page.save ⟨title, b⟩ fs).2.ownerReadable (title ++ ".txt") = true →
          loadPage title (Page.save ⟨title, b⟩ fs).2 = .ok ⟨title, b⟩)
      ∧ (∀ p, loadPage title (Page.save ⟨title, b⟩ fs).2 = .ok p → p = ⟨title, b⟩) := by
  have hl := os.WriteFile_ok fs (title ++ ".txt") b 0o600 hs
  have hload := loadPage_of_lookup title _ _ _ hl
  refine ⟨?_, ?_, ?_⟩
  · simp only [FS.content, Page.save, hl]
  · intro hr
    simp only [FS.ownerReadable, Page.save, hl, bne_iff_ne, ne_eq] at hr
    rw [show (Page.save ⟨title, b⟩ fs).2 = (os.WriteFile fs (title ++ ".txt") b 0o600).2 from rfl,
      hload, if_neg hr]
  · intro p hp
    rw [show (Page.save ⟨title, b⟩ fs).2 = (os.WriteFile fs (title ++ ".txt") b 0o600).2 from rfl,
      hload] at hp
    split at hp
    · cases hp
    · exact (Except.ok.inj hp).symm

/-- C1 (amended) at a concrete input: over the page `Test` already saved with another body,
a second save with body `hello` is what the next load returns. -/
theorem save_then_loadPage_witness :
    validTitle "Test" = true
      ∧ (Page.save ⟨"Test", toBytes "hello"⟩ fsTwoPages).1 = none
      ∧ (Page.save ⟨"Test", toBytes "hello"⟩ fsTwoPages).2.ownerReadable "Test.txt" = true
      ∧ loadPage "Test" (Page.save ⟨"Test", toBytes "hello"⟩ fsTwoPages).2
          = .ok ⟨"Test", toBytes "hello"⟩ :=
  ⟨by decide, by decide, by decide,
    (save_then_loadPage "Test" (toBytes "hello") fsTwoPages (by decide) (by decide)).2.1
      (by decide)⟩

/-- C2: for every wrapped handler `fn` and every request whose path is not of the form
`/(view|edit|save)/[a-zA-Z0-9]+`, the handler `makeHandler(fn)` replies as `http.NotFound`
does, with status 404 on a writer whose header is unwritten, and does not call `fn`: the
reply and the world do not depend on `fn`, the world is unchanged, and the log of calls
stays empty. -/
theorem makeHandler_not_found {σ : Type} (fn : TitleHandler σ) (w : ResponseWriter)
    (r : Request) (s : σ) (h : pathMatches r.Path = false) :
    makeHandler fn w r s = (http.NotFound w r, s)
      ∧ makeHandler (logged fn) w r (s, []) = (http.NotFound w r, (s, []))
      ∧ (w.status = none → (makeHandler fn w r s).1.status = some 404) := by
  have hn := validPath_none r.Path h
  refine ⟨?_, ?_, ?_⟩
  · simp only [makeHandler, hn]
  · simp only [makeHandler, hn]
  · intro hw
    simp only [makeHandler, hn]
    exact (http.Error_unwritten w _ 404 hw).1

/-- C2 at a concrete input: a title followed by a newline is answered with 404 and the
directory is untouched. -/
theorem makeHandler_not_found_witness :
    pathMatches "/save/Test\n" = false
      ∧ makeHandler saveHandler .fresh ⟨"POST", "/save/Test\n", [("body", "hello")]⟩ fsEmpty
          = (http.NotFound .fresh ⟨"POST", "/save/Test\n", [("body", "hello")]⟩, fsEmpty)
      ∧ (makeHandler saveHandler .fresh
            ⟨"POST", "/save/Test\n", [("body", "hello")]⟩ fsEmpty).1.status = some 404 :=
  ⟨by decide,
    (makeHandler_not_found saveHandler .fresh ⟨"POST", "/save/Test\n", [("body", "hello")]⟩
      fsEmpty (by decide)).1,
    (makeHandler_not_found saveHandler .fresh ⟨"POST", "/save/Test\n", [("body", "hello")]⟩
      fsEmpty (by decide)).2.2 rfl⟩

/-- C3: for every wrapped handler `fn` and every request whose path is `"/" + verb + "/" + t`
with `verb` one of view, edit, save and `t` a non-empty string over `[a-zA-Z0-9]`, the
handler `makeHandler(fn)` does exactly what one call `fn(w, r, t)` does (so it writes no 404
of its own), and the log of calls holds `t` once; and for every request whatsoever, each
title a handler receives through `makeHandler` is non-empty and made of ASCII letters and
digits only. -/
theorem makeHandler_dispatch {σ : Type} (fn : TitleHandler σ) (w : ResponseWriter)
    (r : Request) (s : σ) (verb t : String) (hv : verb ∈ verbs) (ht : validTitle t = true)
    (hp : r.Path = "/" ++ verb ++ "/" ++ t) :
    makeHandler fn w r s = fn w r t s
      ∧ makeHandler (logged fn) w r (s, []) = ((fn w r t s).1, ((fn w r t s).2, [t]))
      ∧ (∀ (w1 : ResponseWriter) (r1 : Request) (s1 : σ),
          ∀ title ∈ (makeHandler (logged fn) w1 r1 (s1, [])).2.2, validTitle title = true) := by
  have hm := validPath_matches verb t hv ht
  rw [← hp] at hm
  refine ⟨?_, ?_, ?_⟩
  · simp only [makeHandler, hm, List.getD_cons_succ, List.getD_cons_zero]
  · simp only [makeHandler, hm, List.getD_cons_succ, List.getD_cons_zero, logged,
      List.nil_append]
  · intro w1 r1 s1 title hmem
    cases hf : validPath.FindStringSubmatch r1.Path with
    | none =>
      simp only [makeHandler, hf] at hmem
      cases hmem
    | some m =>
      obtain ⟨verb1, _, t1, ht1, _, hm1⟩ := validPath_some r1.Path m hf
      simp only [makeHandler, hf, hm1, List.getD_cons_succ, List.getD_cons_zero, logged,
        List.nil_append, List.mem_singleton] at hmem
      rw [hmem]
      exact ht1

/-- C3 at a concrete input: the request for `/view/Test` reaches `viewHandler` with the title
`Test`. -/
theorem makeHandler_dispatch_witness :
    "view" ∈ verbs ∧ validTitle "Test" = true
      ∧ makeHandler (viewHandler plainTemplates) .fresh viewRequest fsTwoPages
          = viewHandler plainTemplates .fresh viewRequest "Test" fsTwoPages :=
  ⟨by decide, by decide,
    (makeHandler_dispatch (viewHandler plainTemplates) .fresh viewRequest fsTwoPages
      "view" "Test" (by decide) (by decide) (by decide)).1⟩

/-- C4: for every title and every state of the directory in which `loadPage(title)` fails
(file absent or any other read error), `viewHandler` replies as `http.Redirect` to
`"/edit/" + title` with code 302 does, whatever the templates are (none is rendered), and
leaves the directory as it was; on a writer whose header is unwritten the status is 302 and
the `Location` header sent is exactly `"/edit/" + title`. -/
theorem viewHandler_redirects (templates : Templates) (w : ResponseWriter) (r : Request)
    (title : String) (fs : FS) (err : String) (h : loadPage title fs = .error err) :
    viewHandler templates w r title fs = (http.Redirect w r ("/edit/" ++ title) 302, fs)
      ∧ (w.status = none →
          (viewHandler templates w r title fs).1.status = some 302
            ∧ (viewHandler templates w r title fs).1.sent.Get "Location"
                = some ("/edit/" ++ title)) := by
  have he : viewHandler templates w r title fs
      = (http.Redirect w r ("/edit/" ++ title) 302, fs) := by
    simp only [viewHandler, h]
  refine ⟨he, fun hw => ?_⟩
  rw [he]
  exact http.Redirect_unwritten w r _ 302 hw

/-- C4 at a concrete input: viewing `Missing` in an empty directory redirects to
`/edit/Missing`. -/
theorem viewHandler_redirects_witness :
    loadPage "Missing" fsEmpty = .error "open Missing.txt: no such file or directory"
      ∧ (viewHandler plainTemplates .fresh ⟨"GET", "/view/Missing", []⟩ "Missing" fsEmpty).1.status
          = some 302
      ∧ (viewHandler plainTemplates .fresh ⟨"GET", "/view/Missing", []⟩ "Missing"
            fsEmpty).1.sent.Get "Location" = some "/edit/Missing"
      ∧ (viewHandler plainTemplates .fresh ⟨"GET", "/view/Missing", []⟩ "Missing" fsEmpty).2
          = fsEmpty :=
  ⟨by decide,
    ((viewHandler_redirects plainTemplates .fresh ⟨"GET", "/view/Missing", []⟩ "Missing"
      fsEmpty "open Missing.txt: no such file or directory" (by decide)).2 rfl).1,
    ((viewHandler_redirects plainTemplates .fresh ⟨"GET", "/view/Missing", []⟩ "Missing"
      fsEmpty "open Missing.txt: no such file or directory" (by decide)).2 rfl).2,
    by decide⟩

/-- C5: for every title and every state of the directory, `editHandler` leaves the directory
as it was (it creates no file); when `loadPage(title)` fails it renders the "edit" template
against the page with that title and an empty body, and when `loadPage(title)` succeeds it
renders the "edit" template against the loaded page, whose title is `title`.  The failure of
the load is neither reported nor redirected: on a writer whose header is unwritten the status
is never 302, and it is not 500 when the template executes without error. -/
theorem editHandler_renders (templates : Templates) (w : ResponseWriter) (r : Request)
    (title : String) (fs : FS) :
    (editHandler templates w r title fs).2 = fs
      ∧ (∀ err, loadPage title fs = .error err →
          (editHandler templates w r title fs).1
            = renderTemplate templates w "edit" { Title := title, Body := [] })
      ∧ (∀ p, loadPage title fs = .ok p →
          p.Title = title
            ∧ (editHandler templates w r title fs).1 = renderTemplate templates w "edit" p)
      ∧ (w.status = none → (editHandler templates w r title fs).1.status ≠ some 302)
      ∧ (w.status = none → ∀ err, loadPage title fs = .error err →
          (templates "edit.html" { Title := title, Body := [] }).err = none →
          (editHandler templates w r title fs).1.status ≠ some 500) := by
  refine ⟨?_, ?_, ?_, ?_, ?_⟩
  · unfold editHandler
    split <;> rfl
  · intro err h
    simp only [editHandler, h]
  · intro p h
    refine ⟨?_, by simp only [editHandler, h]⟩
    unfold loadPage at h
    cases hr : os.ReadFile fs (title ++ ".txt") with
    | error e =>
      simp only [hr] at h
      cases h
    | ok body =>
      simp only [hr] at h
      rw [← Except.ok.inj h]
  · intro hw
    unfold editHandler
    split
    · exact (renderTemplate_status templates w "edit" _ hw).1
    · exact (renderTemplate_status templates w "edit" _ hw).1
  · intro hw err h he
    simp only [editHandler, h]
    exact (renderTemplate_status templates w "edit" _ hw).2 he

/-- C5 at a concrete input: editing `Missing` in an empty directory renders the edit template
on the page `Missing` with empty body, with status 200 and no file created. -/
theorem editHandler_renders_witness :
    loadPage "Missing" fsEmpty = .error "open Missing.txt: no such file or directory"
      ∧ (editHandler plainTemplates .fresh ⟨"GET", "/edit/Missing", []⟩ "Missing" fsEmpty).1
          = renderTemplate plainTemplates .fresh "edit" { Title := "Missing", Body := [] }
      ∧ (editHandler plainTemplates .fresh ⟨"GET", "/edit/Missing", []⟩ "Missing" fsEmpty).1.status
          = some 200
      ∧ (editHandler plainTemplates .fresh ⟨"GET", "/edit/Missing", []⟩ "Missing" fsEmpty).2
          = fsEmpty :=
  ⟨by decide,
    (editHandler_renders plainTemplates .fresh ⟨"GET", "/edit/Missing", []⟩ "Missing"
      fsEmpty).2.1 "open Missing.txt: no such file or directory" (by decide),
    by decide,
    (editHandler_renders plainTemplates .fresh ⟨"GET", "/edit/Missing", []⟩ "Missing"
      fsEmpty).1⟩

/-- C6, as stated, fails: with `Test.txt` present and write-only (mode 0200), the save of
body `hello` under `Test` succeeds, the file holds `hello` and the reply is a 302 to
`/view/Test`; the `viewHandler` call that follows cannot read the file, redirects to
`/edit/Test` and renders nothing. -/
theorem saveHandler_then_view_redirects :
    (Page.save ⟨"Test", toBytes "hello"⟩ fsWriteOnly).1 = none
      ∧ (saveHandler .fresh saveRequest "Test" fsWriteOnly).2.content "Test.txt"
          = some (toBytes "hello")
      ∧ (saveHandler .fresh saveRequest "Test" fsWriteOnly).1.status = some 302
      ∧ (viewHandler plainTemplates .fresh viewRequest "Test"
            (saveHandler .fresh saveRequest "Test" fsWriteOnly).2).1
          = http.Redirect .fresh viewRequest "/edit/Test" 302
      ∧ (viewHandler plainTemplates .fresh viewRequest "Test"
            (saveHandler .fresh saveRequest "Test" fsWriteOnly).2).1
          ≠ renderTemplate plainTemplates .fresh "view" ⟨"Test", toBytes "hello"⟩ := by
  decide

/-- C6 (amended): for every title and every value `b` of the form field "body", if the write
succeeds then after `saveHandler` the file `<title>.txt` holds exactly the bytes of `b` and
the reply is the 302 redirect to `"/view/" + title`; and provided the file is readable by
its owner, a following `viewHandler` call for the same title renders the "view" template
against `Page{title, b}` instead of redirecting. -/
theorem saveHandler_then_view (w : ResponseWriter) (r : Request) (title : String) (fs : FS)
    (hs : (Page.save ⟨title, toBytes (r.FormValue "body")⟩ fs).1 = none) :
    (saveHandler w r title fs).2.content (title ++ ".txt") = some (toBytes (r.FormValue "body"))
      ∧ (saveHandler w r title fs).1 = http.Redirect w r ("/view/" ++ title) 302
      ∧ (w.status = none →
          (saveHandler w r title fs).1.status = some 302
            ∧ (saveHandler w r title fs).1.sent.Get "Location" = some ("/view/" ++ title))
      ∧ ((saveHandler w r title fs).2.ownerReadable (title ++ ".txt") = true →
          ∀ (templates : Templates) (w1 : ResponseWriter) (r1 : Request),
            viewHandler templates w1 r1 title (saveHandler w r title fs).2
              = (renderTemplate templates w1 "view" ⟨title, toBytes (r.FormValue "body")⟩,
                  (saveHandler w r title fs).2)) := by
  have hout := saveHandler_of_ok w r title fs hs
  have hl := os.WriteFile_ok fs (title ++ ".txt") (toBytes (r.FormValue "body")) 0o600 hs
  have hfs : (Page.save ⟨title, toBytes (r.FormValue "body")⟩ fs).2
      = (os.WriteFile fs (title ++ ".txt") (toBytes (r.FormValue "body")) 0o600).2 := rfl
  rw [hout]
  refine ⟨?_, rfl, fun hw => http.Redirect_unwritten w r _ 302 hw, ?_⟩
  · simp only [FS.content, hfs, hl]
  · intro hr templates w1 r1
    simp only [FS.ownerReadable, hfs, hl, bne_iff_ne, ne_eq] at hr
    simp only [viewHandler, hfs, loadPage_of_lookup title _ _ _ hl, if_neg hr]

/-- C6 (amended) at a concrete input: saving `hello` under `Test` in an empty directory,
then viewing `Test`, renders the view template on the saved page. -/
theorem saveHandler_then_view_witness :
    (Page.save ⟨"Test", toBytes (saveRequest.FormValue "body")⟩ fsEmpty).1 = none
      ∧ (saveHandler .fresh saveRequest "Test" fsEmpty).2.content "Test.txt"
          = some (toBytes "hello")
      ∧ (saveHandler .fresh saveRequest "Test" fsEmpty).2.ownerReadable "Test.txt" = true
      ∧ viewHandler plainTemplates .fresh viewRequest "Test"
            (saveHandler .fresh saveRequest "Test" fsEmpty).2
          = (renderTemplate plainTemplates .fresh "view" ⟨"Test", toBytes "hello"⟩,
              (saveHandler .fresh saveRequest "Test" fsEmpty).2) :=
  ⟨by decide,
    (saveHandler_then_view .fresh saveRequest "Test" fsEmpty (by decide)).1,
    by decide,
    (saveHandler_then_view .fresh saveRequest "Test" fsEmpty (by decide)).2.2.2 (by decide)
      plainTemplates .fresh viewRequest⟩

/-- C7: for every title and form body, on a writer whose header is unwritten: if `Page.save`
returns an error then `saveHandler` replies as `http.Error` with that error's text and code
500 does, so the status is 500, the body is the error text and a newline, and no redirect is
issued; and `saveHandler` replies with status 302 if and only if `save` returned no error. -/
theorem saveHandler_error (w : ResponseWriter) (r : Request) (title : String) (fs : FS)
    (hw : w.status = none) :
    (∀ err, (Page.save ⟨title, toBytes (r.FormValue "body")⟩ fs).1 = some err →
        (saveHandler w r title fs).1 = http.Error w err 500
          ∧ (saveHandler w r title fs).1.status = some 500
          ∧ (saveHandler w r title fs).1.body = w.body ++ toBytes (err ++ "\n")
          ∧ (saveHandler w r title fs).1.status ≠ some 302)
      ∧ ((saveHandler w r title fs).1.status = some 302
          ↔ (Page.save ⟨title, toBytes (r.FormValue "body")⟩ fs).1 = none) := by
  have herr : ∀ err, (Page.save ⟨title, toBytes (r.FormValue "body")⟩ fs).1 = some err →
      (saveHandler w r title fs).1 = http.Error w err 500 :=
    fun err he => saveHandler_of_error w r title fs err he
  refine ⟨?_, ?_⟩
  · intro err he
    rw [herr err he]
    have h5 := http.Error_unwritten w err 500 hw
    exact ⟨rfl, h5.1, h5.2, by rw [h5.1]; simp⟩
  · cases hs : (Page.save ⟨title, toBytes (r.FormValue "body")⟩ fs).1 with
    | none =>
      rw [saveHandler_of_ok w r title fs hs]
      simp [(http.Redirect_unwritten w r ("/view/" ++ title) 302 hw).1]
    | some err =>
      rw [herr err hs, (http.Error_unwritten w err 500 hw).1]
      simp

/-- C7 at a concrete input: with `Test.txt` read-only the save fails and the reply is a 500
whose body is the error text. -/
theorem saveHandler_error_witness :
    (Page.save ⟨"Test", toBytes (saveRequest.FormValue "body")⟩ fsReadOnly).1
        = some "open Test.txt: permission denied"
      ∧ (saveHandler .fresh saveRequest "Test" fsReadOnly).1.status = some 500
      ∧ (saveHandler .fresh saveRequest "Test" fsReadOnly).1.body
          = toBytes "open Test.txt: permission denied\n"
      ∧ (saveHandler .fresh saveRequest "Test" fsReadOnly).1.sent.Get "Location" = none :=
  ⟨by decide,
    ((saveHandler_error .fresh saveRequest "Test" fsReadOnly rfl).1
      "open Test.txt: permission denied" (by decide)).2.1,
    by decide, by decide⟩

/-- C8, evaluated where it fails: a template that has written `<h1>` and then returns an
error leaves the status at 200, not 500; the error text is appended to the output already
written. -/
theorem renderTemplate_error_after_output :
    (failingTemplates "view.html" ⟨"Test", toBytes "hello"⟩).err
        = some "template: can't evaluate field Author in type *main.Page"
      ∧ (renderTemplate failingTemplates .fresh "view" ⟨"Test", toBytes "hello"⟩).status
          = some 200
      ∧ (renderTemplate failingTemplates .fresh "view" ⟨"Test", toBytes "hello"⟩).body
          = toBytes "<h1>template: can't evaluate field Author in type *main.Page\n" := by
  decide

/-- C9, as stated, fails: with `Test.txt` present with mode 0644, a successful save leaves
the mode at 0644, not 0600. -/
theorem save_keeps_mode :
    (Page.save ⟨"Test", toBytes "hello"⟩ fsWorldReadable).1 = none
      ∧ (Page.save ⟨"Test", toBytes "hello"⟩ fsWorldReadable).2.mode "Test.txt" = some 0o644
      ∧ (Page.save ⟨"Test", toBytes "hello"⟩ fsWorldReadable).2.mode "Test.txt" ≠ some 0o600 := by
  decide

/-- C9 (amended): for every page and every prior state of the directory, after a successful
`Page.save`: if `<title>.txt` was absent, the file has the mode 0600 without the bits of the
umask, which has no bit outside owner read/write and is 0600 itself when the umask masks
neither of the two; if `<title>.txt` existed already, it keeps the mode it had. -/
theorem save_mode (p : Page) (fs : FS) (hs : (p.save fs).1 = none) :
    (fs.lookup (p.Title ++ ".txt") = none →
        (p.save fs).2.mode (p.Title ++ ".txt") = some (applyUmask 0o600 fs.umask)
          ∧ applyUmask 0o600 fs.umask &&& 0o177 = 0
          ∧ (fs.umask &&& 0o600 = 0 → (p.save fs).2.mode (p.Title ++ ".txt") = some 0o600))
      ∧ (∀ data mode, fs.lookup (p.Title ++ ".txt") = some (.file data mode) →
          (p.save fs).2.mode (p.Title ++ ".txt") = some mode) := by
  have hl := os.WriteFile_ok fs (p.Title ++ ".txt") p.Body 0o600 hs
  have hm : (p.save fs).2.mode (p.Title ++ ".txt")
      = some (modeAfterWrite fs (p.Title ++ ".txt") 0o600) := by
    simp only [FS.mode, Page.save, hl]
  refine ⟨?_, ?_⟩
  · intro hnone
    have h1 : (p.save fs).2.mode (p.Title ++ ".txt") = some (applyUmask 0o600 fs.umask) := by
      rw [hm]
      simp only [modeAfterWrite, hnone]
    refine ⟨h1, applyUmask_bits fs.umask, fun hu => ?_⟩
    rw [h1, applyUmask_exact fs.umask hu]
  · intro data mode hsome
    rw [hm]
    simp only [modeAfterWrite, hsome]

/-- C9 (amended) at a concrete input: saving `Test` into an empty directory under umask 022
creates `Test.txt` with mode 0600. -/
theorem save_mode_witness :
    (Page.save ⟨"Test", toBytes "hello"⟩ fsEmpty).1 = none
      ∧ fsEmpty.lookup "Test.txt" = none
      ∧ (Page.save ⟨"Test", toBytes "hello"⟩ fsEmpty).2.mode "Test.txt" = some 0o600 :=
  ⟨by decide, by decide,
    ((save_mode ⟨"Test", toBytes "hello"⟩ fsEmpty (by decide)).1 (by decide)).2.2 (by decide)⟩

/-- C10: for every two distinct titles `a` and `b` and every body, `Page{a, body}.save()`
touches only the entry `a + ".txt"`: every other entry of the directory is the same before
and after, and so is the result of `loadPage(b)`, error or page, because `a + ".txt"` and
`b + ".txt"` are different names. -/
theorem save_frame (a b : String) (body : List UInt8) (fs : FS) (hab : a ≠ b) :
    (∀ name, name ≠ a ++ ".txt" →
        (Page.save ⟨a, body⟩ fs).2.lookup name = fs.lookup name)
      ∧ b ++ ".txt" ≠ a ++ ".txt"
      ∧ loadPage b (Page.save ⟨a, body⟩ fs).2 = loadPage b fs := by
  have hne : b ++ ".txt" ≠ a ++ ".txt" := fun h => hab (txt_injective b a h).symm
  have hfr : ∀ name, name ≠ a ++ ".txt" →
      (Page.save ⟨a, body⟩ fs).2.lookup name = fs.lookup name :=
    fun name hn => os.WriteFile_lookup_other fs (a ++ ".txt") name body 0o600 hn
  exact ⟨hfr, hne, loadPage_congr b _ _ (hfr _ hne)⟩

/-- C10 at a concrete input: saving `Test` leaves the page `Other` as it was. -/
theorem save_frame_witness :
    "Test" ≠ "Other"
      ∧ loadPage "Other" (Page.save ⟨"Test", toBytes "hello"⟩ fsTwoPages).2
          = loadPage "Other" fsTwoPages
      ∧ loadPage "Other" fsTwoPages = .ok ⟨"Other", toBytes "other"⟩ :=
  ⟨by decide,
    (save_frame "Test" "Other" (toBytes "hello") fsTwoPages (by decide)).2.2,
    by decide⟩

end Wiki
